import Mathlib

/-!
Shallow embedding of the rent-reclamation engine of `sol-tool`
(`src/commands/clean.rs`, `src/main.rs`), together with theorems settling
the specification claims about account classification, batch planning,
local execution, CSV fleet loading and ordered fleet reporting.

Byte buffers are modelled as `List Nat` (one entry per byte); public keys
are opaque `Nat` identifiers; machine-integer arithmetic that can wrap is
made explicit with `% 2 ^ 32`.
-/

namespace SolTool

/-- `solana_sdk::account::Account`, restricted to the two fields the clean
command reads: the lamport balance and the raw data bytes. -/
structure Account where
  lamports : Nat
  data : List Nat
deriving Repr, DecidableEq

/-- `CloseableAccount` from `clean.rs`.  The source stores `address` and
`mint` as display strings and `token_balance` as an `f64` computed by
`utils::token_amount(amount, 9)` for display only; here we keep the
underlying pubkey, the raw 32-byte mint value and the raw `u64` amount,
which determine those display fields. -/
structure CloseableAccount where
  address : Nat
  mint : Nat
  amountRaw : Nat
  rent_lamports : Nat
deriving Repr, DecidableEq

/-- Read byte `i` of the buffer; out-of-range reads yield 0 (the source
only reads in range, guarded by explicit length checks). -/
def byteAt (data : List Nat) (i : Nat) : Nat := data.getD i 0

/-- Little-endian integer read of `n` bytes starting at offset `off`,
mirroring `uN::from_le_bytes(data[off..off+n])`. -/
def readLE (data : List Nat) (off : Nat) : Nat → Nat
  | 0 => 0
  | n + 1 => byteAt data off + 256 * readLE data (off + 1) n

/-- `clean.rs:432-433`: `data.len() > 76 && u32::from_le_bytes(data[72..76]) == 1`. -/
def hasDelegate (data : List Nat) : Bool :=
  decide (data.length > 76) && decide (readLE data 72 4 = 1)

/-- `clean.rs:436`: `data.len() > 108 && data[108] == 2`. -/
def isFrozen (data : List Nat) : Bool :=
  decide (data.length > 108) && decide (byteAt data 108 = 2)

/-- Loop body of `filter_closeable_accounts` (`clean.rs:418-449`) for one
`(addr, acc)` pair: `none` when the account is skipped, `some` with the
pushed entry when it is closeable. -/
def closeEntry (dust_lamports : Nat) (addr : Nat) (acc : Account) :
    Option (Nat × CloseableAccount) :=
  let data := acc.data
  if data.length < 72 then none
  else
    let amount := readLE data 64 8
    let mint := readLE data 0 32
    let is_empty := decide (amount = 0)
    let is_dust := decide (dust_lamports > 0) && decide (amount > 0) &&
      decide (amount ≤ dust_lamports)
    if is_empty || is_dust then
      if !hasDelegate data && !isFrozen data then
        some (addr, ⟨addr, mint, amount, acc.lamports⟩)
      else none
    else none

/-- `filter_closeable_accounts` (`clean.rs:412-452`): keep, in order, the
entries whose loop body pushes a `CloseableAccount`. -/
def filter_closeable_accounts (accounts : List (Nat × Account))
    (dust_lamports : Nat) : List (Nat × CloseableAccount) :=
  accounts.filterMap (fun p => closeEntry dust_lamports p.1 p.2)

/-- `usize::clamp(1, 20)` applied to the `--batch` argument
(`main.rs:129`). -/
def clampBatch (b : Nat) : Nat := min (max b 1) 20

/-- `slice::chunks(n)` as used on the closeable list (`clean.rs:177`,
`clean.rs:262`, `clean.rs:765`): successive sub-lists of length `n`, the
last one possibly shorter.  `chunks(0)` panics in Rust and is unreachable
here because every caller passes the clamped batch size `≥ 1`; the `n = 0`
branch below only serves termination. -/
def chunksAux : Nat → Nat → List α → List (List α)
  | 0, _, _ => []
  | _ + 1, _, [] => []
  | fuel + 1, n, l =>
    if n = 0 then [] else l.take n :: chunksAux fuel n (l.drop n)

/-- `chunksList n l` is `chunksAux` started with enough fuel (`l.length`
steps always suffice, since each step consumes at least one element when
`n ≥ 1`). -/
def chunksList (n : Nat) (l : List α) : List (List α) :=
  chunksAux l.length n l

/-- Sum of `rent_lamports` over a batch, as in
`batch.iter().map(|b| b.1.rent_lamports).sum()` (`clean.rs:308`,
`clean.rs:747`, `clean.rs:788`). -/
def rentSum (batch : List (Nat × CloseableAccount)) : Nat :=
  (batch.map (fun p => p.2.rent_lamports)).sum

/-- Running totals of the keypair-mode batch loop (`clean.rs:279-281`). -/
structure ExecTotals where
  closed : Nat
  reclaimed : Nat
  sigs : List Nat
deriving Repr, DecidableEq

/-- The keypair-mode batch loop (`clean.rs:283-324`): each batch is paired
with its submission outcome (`some sig` for `Ok(sig)`, `none` for `Err`).
On success the batch's size, rent sum and signature are accumulated; on
failure nothing is accumulated and the loop continues with the next
batch. -/
def execBatches : List (List (Nat × CloseableAccount) × Option Nat) → ExecTotals
  | [] => ⟨0, 0, []⟩
  | (batch, outcome) :: rest =>
    match outcome with
    | some sig =>
      let t := execBatches rest
      ⟨batch.length + t.closed, rentSum batch + t.reclaimed, sig :: t.sigs⟩
    | none => execBatches rest

/-- The successfully submitted batches, with their signatures, in order. -/
def successfulBatches (runs : List (List (Nat × CloseableAccount) × Option Nat)) :
    List (List (Nat × CloseableAccount) × Nat) :=
  runs.filterMap (fun p => p.2.map (fun s => (p.1, s)))

/-- Blockhash usage of the keypair-mode loop (`clean.rs:283-305`):
`get_latest_blockhash()` is called inside the loop, once per batch, right
before the transaction is built and signed.  `hashes k` is the value the
RPC returns to the `k`-th fetch; the result lists, per batch, the
blockhash placed in that batch's transaction. -/
def localLoopHashes (hashes : Nat → Nat) (fetched : Nat) :
    List (List α) → List Nat
  | [] => []
  | _ :: rest => hashes fetched :: localLoopHashes hashes (fetched + 1) rest

/-- Entry point of the keypair-mode loop: no blockhash has been fetched
before the loop starts. -/
def localTxHashes (hashes : Nat → Nat) (batches : List (List α)) : List Nat :=
  localLoopHashes hashes 0 batches

/-- Blockhash usage of one wallet's CSV batch-mode pipeline
(`clean.rs:757-784`): `get_latest_blockhash()` is called once, before the
chunk loop, and the same `recent_hash` is placed in every chunk's
transaction. -/
def batchModeTxHashes (hashes : Nat → Nat) (chunks : List (List α)) : List Nat :=
  chunks.map (fun _ => hashes 0)

/-- Instructions appearing in a close transaction.  `closeAccount a d au`
is `spl_token::instruction::close_account(&spl_token::id(), a, d, au, &[])`,
with the account to close, the lamport destination and the authority. -/
inductive Instr where
  | computeUnitLimit (units : Nat)
  | computeUnitPrice (price : Nat)
  | closeAccount (account dest authority : Nat)
deriving Repr, DecidableEq

/-- Instruction list built for one batch, identically on all three
executor paths (`clean.rs:178-190` relay, `clean.rs:288-301` keypair,
`clean.rs:766-777` CSV batch mode): the compute-unit-limit
`batch.len() as u32 * 3000 + 5000` (`u32` arithmetic, hence `% 2 ^ 32`),
the constant compute-unit-price `1000`, then one close instruction per
account of the batch, in batch order, paying to and signed by the wallet.
(`close_account` with the real token-program id never returns `Err`, so
the batch-mode `if let Ok` push is unconditional in effect.) -/
def buildBatchIxs (wallet : Nat) (batch : List (Nat × CloseableAccount)) :
    List Instr :=
  [Instr.computeUnitLimit (((batch.length % 2 ^ 32) * 3000 + 5000) % 2 ^ 32),
   Instr.computeUnitPrice 1000]
  ++ batch.map (fun p => Instr.closeAccount p.1 wallet wallet)

/-- Result tuple of one wallet's batch-mode pipeline:
`(original_index, wallet, closed_count, reclaimed_lamports, success)`. -/
abbrev WalletResult := Nat × Nat × Nat × Nat × Bool

/-- Chunk loop of the batch-mode pipeline (`clean.rs:762-790`): `sendOk i`
tells whether `send_and_confirm_transaction` succeeds for the `i`-th
chunk; successful chunks add their size and rent sum, failed chunks add
nothing. -/
def closeChunksLoop (sendOk : Nat → Bool) (i : Nat) :
    List (List (Nat × CloseableAccount)) → Nat × Nat
  | [] => (0, 0)
  | c :: rest =>
    let t := closeChunksLoop sendOk (i + 1) rest
    if sendOk i then (c.length + t.1, rentSum c + t.2) else t

/-- One wallet's task in the batch-mode fleet (`clean.rs:710-793`).
`fetch` is the outcome of `get_program_accounts_with_config` (`none` for
`Err`), `bh` the outcome of `get_latest_blockhash`, `sendOk` the per-chunk
submission outcomes. -/
def walletTask (idx wallet : Nat) (fetch : Option (List (Nat × Account)))
    (dust : Nat) (dryRun : Bool) (bh : Option Nat) (sendOk : Nat → Bool)
    (batchSize : Nat) : WalletResult :=
  match fetch with
  | none => (idx, wallet, 0, 0, false)
  | some accounts =>
    let candidates := filter_closeable_accounts accounts dust
    if candidates.isEmpty then (idx, wallet, 0, 0, true)
    else
      let rent_total := rentSum candidates
      if dryRun then (idx, wallet, candidates.length, rent_total, true)
      else
        match bh with
        | none => (idx, wallet, candidates.length, 0, false)
        | some _ =>
          let t := closeChunksLoop sendOk 0 (chunksList batchSize candidates)
          (idx, wallet, t.1, t.2, true)

/-- `wallet_results.sort_by_key(|(idx, ..)| *idx)` (`clean.rs:810`): a
stable sort of the collected result tuples by `original_index`. -/
def sortResults (results : List WalletResult) : List WalletResult :=
  results.mergeSort (fun a b => a.1 ≤ b.1)

/-- Fleet summary accumulation (`clean.rs:842-843`): `total_closed` adds
every result's `closed` field, with no regard to its `success` flag. -/
def totalClosed (results : List WalletResult) : Nat :=
  (results.map (fun r => r.2.2.1)).sum

/-- Reasons for the per-line warnings of the CSV loader
(`clean.rs:627-680`). -/
inductive WarnReason where
  | invalidFormat
  | invalidPubkey
  | invalidBase58
  | invalidKeypairBytes
  | keypairMismatch
deriving Repr, DecidableEq

/-- Outcome of the CSV loader for one line: silently skipped as
empty/comment, warned-and-skipped as malformed, or accepted. -/
inductive LineOutcome where
  | skipped
  | warned (r : WarnReason)
  | accepted (pk : Nat)
deriving Repr, DecidableEq

/-- ASCII whitespace, for `str::trim` on the loader's input lines. -/
def isWs (c : Char) : Bool := c = ' ' || c = '\t' || c = '\n' || c = '\r'

/-- `str::trim` on an ASCII line. -/
def trimChars (l : List Char) : List Char :=
  ((l.dropWhile isWs).reverse.dropWhile isWs).reverse

/-- The base58 alphabet of the `bs58` crate (Bitcoin alphabet). -/
def base58Alphabet : List Char :=
  "123456789ABCDEFGHJKLMNPQRSTUVWXYZabcdefghijkmnopqrstuvwxyz".toList

/-- Digit value of one base58 character, `none` if not in the alphabet. -/
def base58Digit (c : Char) : Option Nat := base58Alphabet.indexOf? c

/-- Big-endian accumulation of a base58 string's numeric value;
`none` as soon as a character is outside the alphabet. -/
def base58Value (acc : Nat) : List Char → Option Nat
  | [] => some acc
  | c :: rest =>
    match base58Digit c with
    | none => none
    | some d => base58Value (acc * 58 + d) rest

/-- Leading `'1'` characters, each contributing one leading zero byte to
the base58 decoding. -/
def countLeadingOnes : List Char → Nat
  | [] => 0
  | c :: rest => if c = '1' then countLeadingOnes rest + 1 else 0

/-- Fuel-bounded byte-length computation; `fuel = n` always suffices,
since `n / 256 < n` for `n ≠ 0`. -/
def byteLenAux : Nat → Nat → Nat
  | 0, _ => 0
  | fuel + 1, n => if n = 0 then 0 else byteLenAux fuel (n / 256) + 1

/-- Minimal number of bytes holding the value `n`. -/
def byteLenNat (n : Nat) : Nat := byteLenAux n n

/-- Length in bytes of `bs58::decode(s)`: one zero byte per leading `'1'`
plus the minimal big-endian encoding of the value; `none` when `s` is not
valid base58. -/
def base58DecodedLen (s : List Char) : Option Nat :=
  match base58Value 0 s with
  | none => none
  | some v => some (countLeadingOnes s + byteLenNat v)

/-- `Pubkey::from_str` (`solana_sdk`): reject strings longer than 44
bytes or whose base58 decoding is not exactly 32 bytes; the numeric value
stands for the resulting key. -/
def parsePubkeyStr (s : List Char) : Option Nat :=
  if s.length > 44 then none
  else
    match base58Value 0 s with
    | none => none
    | some v =>
      if countLeadingOnes s + byteLenNat v = 32 then some v else none

/-- One iteration of the CSV loader loop (`clean.rs:616-684`).  `kpDerive`
models `Keypair::try_from` on a decoded 64-byte buffer followed by
`keypair.pubkey()` — ed25519 key derivation lives in `solana_sdk`, outside
this repository, so it is a parameter: given the decoded private-key value
it returns the derived public key, or `none` when the bytes are not a
consistent keypair.  The trimmed line is skipped when empty or starting
with `'#'`; otherwise it is split on `','` and each stage's failure is
warned and skipped. -/
def processLine (kpDerive : Nat → Option Nat) (line : List Char) : LineOutcome :=
  let line := trimChars line
  if line.isEmpty || line.headD ' ' = '#' then .skipped
  else
    let parts := line.splitOn ','
    if parts.length ≠ 2 then .warned .invalidFormat
    else
      let pubkeyStr := trimChars (parts.getD 0 [])
      let privkeyStr := trimChars (parts.getD 1 [])
      match parsePubkeyStr pubkeyStr with
      | none => .warned .invalidPubkey
      | some pk =>
        match base58Value 0 privkeyStr with
        | none => .warned .invalidBase58
        | some kv =>
          if countLeadingOnes privkeyStr + byteLenNat kv ≠ 64 then
            .warned .invalidKeypairBytes
          else
            match kpDerive kv with
            | none => .warned .invalidKeypairBytes
            | some derived =>
              if derived ≠ pk then .warned .keypairMismatch
              else .accepted pk

/-- The loader's accumulated wallet list: accepted lines, in order;
skipped and warned lines contribute nothing and do not abort. -/
def loadWallets (kpDerive : Nat → Option Nat) (lines : List (List Char)) :
    List Nat :=
  lines.filterMap (fun line =>
    match processLine kpDerive line with
    | .accepted pk => some pk
    | _ => none)

/-! ## Helper lemmas -/

theorem clampBatch_pos (b : Nat) : 0 < clampBatch b := by
  unfold clampBatch; omega

theorem clampBatch_le (b : Nat) : clampBatch b ≤ 20 := by
  unfold clampBatch; omega

theorem chunksAux_flatten {α : Type} (n : Nat) (hn : 0 < n) :
    ∀ (fuel : Nat) (l : List α), l.length ≤ fuel →
      (chunksAux fuel n l).flatten = l := by
  intro fuel
  induction fuel with
  | zero =>
    intro l hl
    have : l = [] := List.length_eq_zero.mp (Nat.le_zero.mp hl)
    subst this; rfl
  | succ fuel ih =>
    intro l hl
    match l with
    | [] => rfl
    | x :: xs =>
      have hne : n ≠ 0 := Nat.pos_iff_ne_zero.mp hn
      simp only [chunksAux, if_neg hne, List.flatten_cons]
      rw [ih ((x :: xs).drop n) (by simp only [List.length_drop]; simp at hl ⊢; omega)]
      exact List.take_append_drop n (x :: xs)

theorem chunksAux_mem_length {α : Type} (n : Nat) :
    ∀ (fuel : Nat) (l : List α) (c : List α), c ∈ chunksAux fuel n l →
      c.length ≤ n := by
  intro fuel
  induction fuel with
  | zero => intro l c hc; simp [chunksAux] at hc
  | succ fuel ih =>
    intro l c hc
    match l with
    | [] => simp [chunksAux] at hc
    | x :: xs =>
      by_cases hn : n = 0
      · simp [chunksAux, hn] at hc
      · simp only [chunksAux, if_neg hn, List.mem_cons] at hc
        rcases hc with h | h
        · subst h; simp only [List.length_take]; omega
        · exact ih _ _ h

theorem chunksList_flatten {α : Type} (n : Nat) (hn : 0 < n) (l : List α) :
    (chunksList n l).flatten = l :=
  chunksAux_flatten n hn l.length l (Nat.le_refl _)

theorem chunksList_mem_length {α : Type} (n : Nat) (l c : List α)
    (hc : c ∈ chunksList n l) : c.length ≤ n :=
  chunksAux_mem_length n l.length l c hc

theorem execBatches_spec (runs : List (List (Nat × CloseableAccount) × Option Nat)) :
    execBatches runs =
      ⟨((successfulBatches runs).map (fun p => p.1.length)).sum,
       ((successfulBatches runs).map (fun p => rentSum p.1)).sum,
       (successfulBatches runs).map (fun p => p.2)⟩ := by
  induction runs with
  | nil => rfl
  | cons r rest ih =>
    obtain ⟨batch, outcome⟩ := r
    cases outcome with
    | none => simpa [execBatches, successfulBatches] using ih
    | some sig => simp [execBatches, successfulBatches, ih]

theorem execBatches_skip (pre post : List (List (Nat × CloseableAccount) × Option Nat))
    (batch : List (Nat × CloseableAccount)) :
    execBatches (pre ++ (batch, none) :: post) = execBatches (pre ++ post) := by
  induction pre with
  | nil => rfl
  | cons r rest ih =>
    obtain ⟨b, o⟩ := r
    cases o <;> simp [execBatches, ih]

theorem localLoopHashes_eq_map {α : Type} (hashes : Nat → Nat) :
    ∀ (batches : List (List α)) (k : Nat),
      localLoopHashes hashes k batches =
        (List.range batches.length).map (fun i => hashes (k + i)) := by
  intro batches
  induction batches with
  | nil => intro k; rfl
  | cons b rest ih =>
    intro k
    simp only [localLoopHashes, List.length_cons, List.range_succ_eq_map,
      List.map_cons, List.map_map, Nat.add_zero, ih (k + 1)]
    congr 1
    apply List.map_congr_left
    intro i _
    simp only [Function.comp_apply]
    congr 1
    omega

/-! ## Claim theorems -/

/-- C7: classification is total — for every raw account buffer shorter
than 72 bytes the classifier returns "not closeable", and the containing
filter drops the account.  No-panic totality holds by construction:
`closeEntry` and `filter_closeable_accounts` are total Lean functions
whose out-of-range byte reads default to zero, exactly as the source's
length-guarded slice accesses never go out of range. -/
theorem c7_classifier_total (dust addr : Nat) (acc : Account)
    (h : acc.data.length < 72) :
    closeEntry dust addr acc = none ∧
    filter_closeable_accounts [(addr, acc)] dust = [] := by
  have h1 : closeEntry dust addr acc = none := by
    unfold closeEntry
    simp [h]
  exact ⟨h1, by simp [filter_closeable_accounts, h1]⟩

/-- Witness for `c7_classifier_total` at the empty buffer. -/
theorem c7_classifier_total_witness :
    (([] : List Nat).length < 72) ∧
    (closeEntry 3 9 ⟨17, []⟩ = none ∧
      filter_closeable_accounts [(9, ⟨17, []⟩)] 3 = []) :=
  ⟨by decide, c7_classifier_total 3 9 ⟨17, []⟩ (by decide)⟩

/-- C1, counterexample: a 76-byte buffer whose bytes 72–76 decode to the
little-endian `u32` value 1 (a live delegate) and whose amount is zero is
nevertheless emitted as closeable, because the source's delegate guard is
`data.len() > 76` (strict), so a buffer of length exactly 76 — which does
contain the delegate discriminant — has the field defaulted to "no
delegate".  This falsifies both "defaulted only when the buffer is too
short to contain it" and "for every buffer of length at least 76 whose
bytes 72-76 decode to 1, the account is never emitted as closeable". -/
theorem c1_counterexample :
    (List.replicate 72 0 ++ [1, 0, 0, 0] : List Nat).length = 76 ∧
    readLE (List.replicate 72 0 ++ [1, 0, 0, 0]) 72 4 = 1 ∧
    readLE (List.replicate 72 0 ++ [1, 0, 0, 0]) 64 8 = 0 ∧
    (closeEntry 0 7 ⟨2039280, List.replicate 72 0 ++ [1, 0, 0, 0]⟩).isSome = true := by
  decide

/-- C1, amended: the delegate guard needs strictly more than 76 bytes, so
the "never closeable" guarantee for a live delegate holds from length 77
on (not 76); the frozen guard needs strictly more than 108 bytes, i.e.
length at least 109, which is exactly "long enough to contain offset
108".  Both exclusions are unconditional — they hold regardless of
balance. -/
theorem c1_delegate_frozen_exclusion (dust addr : Nat) (acc : Account) :
    (77 ≤ acc.data.length → readLE acc.data 72 4 = 1 →
      closeEntry dust addr acc = none) ∧
    (109 ≤ acc.data.length → byteAt acc.data 108 = 2 →
      closeEntry dust addr acc = none) := by
  constructor
  · intro h77 hd
    have hdel : hasDelegate acc.data = true := by
      unfold hasDelegate
      simp [hd]; omega
    unfold closeEntry
    simp [hdel]
  · intro h109 hf
    have hfr : isFrozen acc.data = true := by
      unfold isFrozen
      simp [hf]; omega
    unfold closeEntry
    simp [hfr]

/-- Witness for `c1_delegate_frozen_exclusion`: a 77-byte delegated buffer
and a 109-byte frozen buffer are both rejected. -/
theorem c1_delegate_frozen_exclusion_witness :
    (77 ≤ (List.replicate 72 0 ++ [1, 0, 0, 0, 0] : List Nat).length ∧
      readLE (List.replicate 72 0 ++ [1, 0, 0, 0, 0]) 72 4 = 1 ∧
      closeEntry 0 7 ⟨2039280, List.replicate 72 0 ++ [1, 0, 0, 0, 0]⟩ = none) ∧
    (109 ≤ (List.replicate 108 0 ++ [2] : List Nat).length ∧
      byteAt (List.replicate 108 0 ++ [2]) 108 = 2 ∧
      closeEntry 0 7 ⟨2039280, List.replicate 108 0 ++ [2]⟩ = none) :=
  ⟨⟨by decide, by decide,
    (c1_delegate_frozen_exclusion 0 7 ⟨2039280, List.replicate 72 0 ++ [1, 0, 0, 0, 0]⟩).1
      (by decide) (by decide)⟩,
   ⟨by decide, by decide,
    (c1_delegate_frozen_exclusion 0 7 ⟨2039280, List.replicate 108 0 ++ [2]⟩).2
      (by decide) (by decide)⟩⟩

/-- C4: for a buffer of length at least 72 with no delegate and not
frozen, closeability is exactly `amount = 0 ∨ 0 < amount ≤ T` for the
dust threshold `T` (in raw token units, `dust_lamports` in the source),
and with no threshold set (`dust_lamports = 0` via `unwrap_or(0)`) exactly
`amount = 0`.  The stated boundary behaviour — `amount = T` closeable,
`amount = T + 1` not — is an instance of the equivalence. -/
theorem c4_dust_threshold (T addr : Nat) (acc : Account)
    (h72 : 72 ≤ acc.data.length)
    (hd : hasDelegate acc.data = false)
    (hf : isFrozen acc.data = false) :
    ((closeEntry T addr acc).isSome ↔
      (readLE acc.data 64 8 = 0 ∨
        (0 < readLE acc.data 64 8 ∧ readLE acc.data 64 8 ≤ T))) ∧
    ((closeEntry 0 addr acc).isSome ↔ readLE acc.data 64 8 = 0) := by
  have hlt : ¬ acc.data.length < 72 := by omega
  constructor
  · unfold closeEntry
    simp [hlt, hd, hf]
    omega
  · unfold closeEntry
    simp [hlt, hd, hf]

/-- Witness for `c4_dust_threshold`: a 72-byte buffer with raw amount 5
against threshold 5. -/
theorem c4_dust_threshold_witness :
    (72 ≤ (List.replicate 64 0 ++ [5, 0, 0, 0, 0, 0, 0, 0] : List Nat).length ∧
      hasDelegate (List.replicate 64 0 ++ [5, 0, 0, 0, 0, 0, 0, 0]) = false ∧
      isFrozen (List.replicate 64 0 ++ [5, 0, 0, 0, 0, 0, 0, 0]) = false) ∧
    (((closeEntry 5 3 ⟨100, List.replicate 64 0 ++ [5, 0, 0, 0, 0, 0, 0, 0]⟩).isSome ↔
        (readLE (List.replicate 64 0 ++ [5, 0, 0, 0, 0, 0, 0, 0]) 64 8 = 0 ∨
          (0 < readLE (List.replicate 64 0 ++ [5, 0, 0, 0, 0, 0, 0, 0]) 64 8 ∧
            readLE (List.replicate 64 0 ++ [5, 0, 0, 0, 0, 0, 0, 0]) 64 8 ≤ 5))) ∧
      ((closeEntry 0 3 ⟨100, List.replicate 64 0 ++ [5, 0, 0, 0, 0, 0, 0, 0]⟩).isSome ↔
        readLE (List.replicate 64 0 ++ [5, 0, 0, 0, 0, 0, 0, 0]) 64 8 = 0)) :=
  ⟨⟨by decide, by decide, by decide⟩,
   c4_dust_threshold 5 3 ⟨100, List.replicate 64 0 ++ [5, 0, 0, 0, 0, 0, 0, 0]⟩
     (by decide) (by decide) (by decide)⟩

/-- C2: in local (signed) execution the totals accumulate exactly over
the successful batches, in order — a failed batch contributes nothing to
`closed_count`, `reclaimed_lamports` or `signatures`, and the loop
continues with the remaining batches instead of aborting (last
conjunct: removing a failed batch from anywhere in the sequence leaves
the totals unchanged). -/
theorem c2_partial_success_totals
    (runs : List (List (Nat × CloseableAccount) × Option Nat)) :
    (execBatches runs).closed =
      ((successfulBatches runs).map (fun p => p.1.length)).sum ∧
    (execBatches runs).reclaimed =
      ((successfulBatches runs).map (fun p => rentSum p.1)).sum ∧
    (execBatches runs).sigs = (successfulBatches runs).map (fun p => p.2) ∧
    ∀ (pre post : List (List (Nat × CloseableAccount) × Option Nat))
      (batch : List (Nat × CloseableAccount)),
      execBatches (pre ++ (batch, none) :: post) = execBatches (pre ++ post) := by
  refine ⟨?_, ?_, ?_, execBatches_skip⟩ <;> rw [execBatches_spec runs]

/-- C3, counterexample: on the CSV batch-mode path the blockhash is
fetched once per wallet, before the chunk loop (`clean.rs:757`), and
reused by every chunk.  With the fetch stream `hashes = id`, a wallet with
two batches signs both with the hash of fetch #0 — two batches of the
same wallet reuse a single blockhash fetched once before the batch loop,
contradicting the claim for the batch-mode path.  The keypair-mode path,
for contrast, fetches per batch. -/
theorem c3_counterexample :
    batchModeTxHashes (fun n : Nat => n) [[10], [20]] = [0, 0] ∧
    localTxHashes (fun n : Nat => n) [[10], [20]] = [0, 1] := by
  decide

/-- C3, amended: the per-batch fresh-blockhash discipline holds on the
single-wallet keypair path — with an injective fetch stream no two
batches carry the same hash — but on the CSV batch-mode path every batch
of a wallet carries the hash of the single fetch made before the loop. -/
theorem c3_blockhash_per_path (hashes : Nat → Nat)
    (batches chunks : List (List Nat))
    (hinj : Function.Injective hashes) :
    (localTxHashes hashes batches).Nodup ∧
    ∀ h ∈ batchModeTxHashes hashes chunks, h = hashes 0 := by
  constructor
  · rw [localTxHashes, localLoopHashes_eq_map]
    exact (List.nodup_range _).map (fun a b hab => by
      have := hinj hab
      omega)
  · intro h hm
    simp only [batchModeTxHashes, List.mem_map] at hm
    obtain ⟨c, _, hc⟩ := hm
    exact hc.symm

/-- Witness for `c3_blockhash_per_path` with the identity fetch stream
and two batches. -/
theorem c3_blockhash_per_path_witness :
    Function.Injective (fun n : Nat => n) ∧
    ((localTxHashes (fun n : Nat => n) [[1], [2]]).Nodup ∧
      ∀ h ∈ batchModeTxHashes (fun n : Nat => n) [[1], [2]], h = 0) :=
  ⟨fun _ _ h => h,
   c3_blockhash_per_path (fun n => n) [[1], [2]] [[1], [2]] (fun _ _ h => h)⟩

/-- C5: batching with the clamped batch size is a faithful partition —
the concatenation of the chunks is the input list (hence order is
preserved, nothing is duplicated and the sizes sum to the input size) and
every chunk has at most the clamped size; 25 accounts with batch size 10
give exactly the sizes 10, 10, 5. -/
theorem c5_batch_partition {α : Type} (B : Nat) (l : List α) :
    (chunksList (clampBatch B) l).flatten = l ∧
    (∀ c ∈ chunksList (clampBatch B) l, c.length ≤ clampBatch B) ∧
    (chunksList (clampBatch 10) (List.range 25)).map List.length = [10, 10, 5] := by
  refine ⟨chunksList_flatten _ (clampBatch_pos B) l,
    fun c hc => chunksList_mem_length _ l c hc, by decide⟩

/-- Witness for `c5_batch_partition` at 25 accounts and batch size 10;
the first chunk is a member of size at most the clamped batch size. -/
theorem c5_batch_partition_witness :
    (chunksList (clampBatch 10) (List.range 25)).flatten = List.range 25 ∧
    (List.range 25).take 10 ∈ chunksList (clampBatch 10) (List.range 25) ∧
    ((List.range 25).take 10).length ≤ clampBatch 10 :=
  ⟨(c5_batch_partition 10 (List.range 25)).1,
   by decide,
   (c5_batch_partition 10 (List.range 25)).2.1 _ (by decide)⟩

/-- C6: for every batch produced by the chunking of any executor path,
the instruction list is exactly the compute-unit-limit `3000 * N + 5000`
(the `u32` wrap is vacuous since `N ≤ 20`), the constant
compute-unit-price, then one close instruction per account in batch
order. -/
theorem c6_instruction_layout (wallet B : Nat)
    (l batch : List (Nat × CloseableAccount))
    (hb : batch ∈ chunksList (clampBatch B) l) :
    buildBatchIxs wallet batch =
      Instr.computeUnitLimit (3000 * batch.length + 5000) ::
      Instr.computeUnitPrice 1000 ::
      batch.map (fun p => Instr.closeAccount p.1 wallet wallet) := by
  have h20 : batch.length ≤ 20 :=
    le_trans (chunksList_mem_length _ l batch hb) (clampBatch_le B)
  have hpow : (2 : Nat) ^ 32 = 4294967296 := by norm_num
  have hlt : batch.length < 2 ^ 32 := by rw [hpow]; omega
  have hlt2 : batch.length * 3000 + 5000 < 2 ^ 32 := by rw [hpow]; omega
  have harith : ((batch.length % 2 ^ 32) * 3000 + 5000) % 2 ^ 32 =
      3000 * batch.length + 5000 := by
    rw [Nat.mod_eq_of_lt hlt, Nat.mod_eq_of_lt hlt2, Nat.mul_comm]
  unfold buildBatchIxs
  rw [harith]
  rfl

/-- Witness for `c6_instruction_layout` on a singleton batch. -/
theorem c6_instruction_layout_witness :
    [(1, (⟨1, 2, 0, 5⟩ : CloseableAccount))] ∈
      chunksList (clampBatch 1) [(1, ⟨1, 2, 0, 5⟩)] ∧
    buildBatchIxs 9 [(1, ⟨1, 2, 0, 5⟩)] =
      [Instr.computeUnitLimit 8000, Instr.computeUnitPrice 1000,
       Instr.closeAccount 1 9 9] :=
  ⟨by decide,
   c6_instruction_layout 9 1 [(1, ⟨1, 2, 0, 5⟩)] [(1, ⟨1, 2, 0, 5⟩)] (by decide)⟩

/-- Strict order on result tuples by `original_index`, the sort key of
`clean.rs:810`. -/
def rowLt (a b : WalletResult) : Prop := a.1 < b.1

instance : DecidableRel rowLt := fun a b => Nat.decLt a.1 b.1

instance : IsAntisymm WalletResult rowLt :=
  ⟨fun _ _ h1 h2 => absurd h2 (Nat.lt_asymm h1)⟩

theorem sortResults_perm (l : List WalletResult) : (sortResults l).Perm l :=
  List.mergeSort_perm l _

theorem sortResults_eq_of_perm (l canonical : List WalletResult)
    (hp : l.Perm canonical) (hkeys : canonical.Pairwise rowLt) :
    sortResults l = canonical := by
  have hperm : (sortResults l).Perm canonical := (sortResults_perm l).trans hp
  have hsorted : (sortResults l).Pairwise
      (fun a b : WalletResult => (decide (a.1 ≤ b.1) : Bool) = true) := by
    unfold sortResults
    exact List.sorted_mergeSort
      (fun a b c hab hbc => by
        simp only [decide_eq_true_eq] at hab hbc ⊢
        omega)
      (fun a b => by
        simp only [Bool.or_eq_true, decide_eq_true_eq]
        omega) l
  have hle : (sortResults l).Pairwise (fun a b : WalletResult => a.1 ≤ b.1) :=
    hsorted.imp (fun h => of_decide_eq_true h)
  have hndc : (canonical.map (fun r : WalletResult => r.1)).Nodup :=
    List.pairwise_map.mpr (hkeys.imp (fun h => Nat.ne_of_lt h))
  have hnds : ((sortResults l).map (fun r : WalletResult => r.1)).Nodup :=
    ((hperm.map (fun r : WalletResult => r.1)).symm).nodup hndc
  have hne : (sortResults l).Pairwise
      (fun a b : WalletResult => a.1 ≠ b.1) := List.pairwise_map.mp hnds
  have hslt : (sortResults l).Pairwise rowLt :=
    (hle.and hne).imp (fun h => Nat.lt_of_le_of_ne h.1 h.2)
  exact List.eq_of_perm_of_sorted hperm hslt hkeys

/-- C9: the fleet report is the input-order list of result tuples — for
any completion order (any permutation `l₁` of the canonical tuples, whose
`original_index` keys are strictly increasing), sorting by
`original_index` recovers exactly the canonical order, and any two
completion orders report identically. -/
theorem c9_ordered_reporting (l₁ l₂ canonical : List WalletResult)
    (h₁ : l₁.Perm canonical) (h₂ : l₂.Perm canonical)
    (hkeys : canonical.Pairwise rowLt) :
    sortResults l₁ = canonical ∧ sortResults l₂ = sortResults l₁ := by
  have e1 := sortResults_eq_of_perm l₁ canonical h₁ hkeys
  have e2 := sortResults_eq_of_perm l₂ canonical h₂ hkeys
  exact ⟨e1, e2.trans e1.symm⟩

/-- Witness for `c9_ordered_reporting`: three result tuples collected in
two different completion orders both report in input order. -/
theorem c9_ordered_reporting_witness :
    ([(1, 4, 5, 6, false), (2, 7, 8, 9, true), (0, 1, 2, 3, true)] :
        List WalletResult).Perm
      [(0, 1, 2, 3, true), (1, 4, 5, 6, false), (2, 7, 8, 9, true)] ∧
    ([(2, 7, 8, 9, true), (0, 1, 2, 3, true), (1, 4, 5, 6, false)] :
        List WalletResult).Perm
      [(0, 1, 2, 3, true), (1, 4, 5, 6, false), (2, 7, 8, 9, true)] ∧
    ([(0, 1, 2, 3, true), (1, 4, 5, 6, false), (2, 7, 8, 9, true)] :
        List WalletResult).Pairwise rowLt ∧
    (sortResults [(1, 4, 5, 6, false), (2, 7, 8, 9, true), (0, 1, 2, 3, true)] =
        [(0, 1, 2, 3, true), (1, 4, 5, 6, false), (2, 7, 8, 9, true)] ∧
      sortResults [(2, 7, 8, 9, true), (0, 1, 2, 3, true), (1, 4, 5, 6, false)] =
        sortResults [(1, 4, 5, 6, false), (2, 7, 8, 9, true), (0, 1, 2, 3, true)]) :=
  ⟨by decide, by decide, by decide,
   c9_ordered_reporting
     [(1, 4, 5, 6, false), (2, 7, 8, 9, true), (0, 1, 2, 3, true)]
     [(2, 7, 8, 9, true), (0, 1, 2, 3, true), (1, 4, 5, 6, false)]
     [(0, 1, 2, 3, true), (1, 4, 5, 6, false), (2, 7, 8, 9, true)]
     (by decide) (by decide) (by decide)⟩

/-- C10: in batch mode, when the blockhash fetch fails after closeable
accounts were found (`clean.rs:757-760`), the wallet's result tuple
carries `closed_count = number of closeable accounts` (though none were
closed), zero reclaimed lamports and `success = false`; and the fleet
summary (`clean.rs:842`) adds that `closed_count` into `total_closed`
unconditionally, wherever the tuple sits among the results. -/
theorem c10_blockhash_failure_reporting (idx wallet dust B : Nat)
    (accs : List (Nat × Account)) (sendOk : Nat → Bool)
    (h : filter_closeable_accounts accs dust ≠ []) :
    walletTask idx wallet (some accs) dust false none sendOk B =
      (idx, wallet, (filter_closeable_accounts accs dust).length, 0, false) ∧
    ∀ rs₁ rs₂ : List WalletResult,
      totalClosed
          (rs₁ ++ walletTask idx wallet (some accs) dust false none sendOk B :: rs₂) =
        totalClosed rs₁ + (filter_closeable_accounts accs dust).length +
          totalClosed rs₂ := by
  have hne : (filter_closeable_accounts accs dust).isEmpty = false := by
    simpa [List.isEmpty_iff] using h
  have h1 : walletTask idx wallet (some accs) dust false none sendOk B =
      (idx, wallet, (filter_closeable_accounts accs dust).length, 0, false) := by
    unfold walletTask
    simp [hne]
  refine ⟨h1, fun rs₁ rs₂ => ?_⟩
  rw [h1]
  unfold totalClosed
  simp only [List.map_append, List.sum_append, List.map_cons, List.sum_cons]
  omega

set_option maxRecDepth 4000 in
/-- Witness for `c10_blockhash_failure_reporting`: a wallet with one
closeable 165-byte all-zero account whose blockhash fetch fails. -/
theorem c10_blockhash_failure_reporting_witness :
    filter_closeable_accounts [(5, ⟨2039280, List.replicate 165 0⟩)] 0 ≠ [] ∧
    walletTask 0 5 (some [(5, ⟨2039280, List.replicate 165 0⟩)]) 0 false none
        (fun _ => true) 10 =
      (0, 5, (filter_closeable_accounts [(5, ⟨2039280, List.replicate 165 0⟩)] 0).length,
        0, false) ∧
    totalClosed
        ([] ++ walletTask 0 5 (some [(5, ⟨2039280, List.replicate 165 0⟩)]) 0 false none
          (fun _ => true) 10 :: []) =
      totalClosed [] +
        (filter_closeable_accounts [(5, ⟨2039280, List.replicate 165 0⟩)] 0).length +
        totalClosed [] :=
  ⟨by decide,
   (c10_blockhash_failure_reporting 0 5 0 10 [(5, ⟨2039280, List.replicate 165 0⟩)]
     (fun _ => true) (by decide)).1,
   (c10_blockhash_failure_reporting 0 5 0 10 [(5, ⟨2039280, List.replicate 165 0⟩)]
     (fun _ => true) (by decide)).2 [] []⟩

/-- C8: evaluation of the CSV loader (`clean.rs:616-684`) on the repo's
own header example.  The loader's skip test is only
`line.is_empty() || line.starts_with('#')`; the uppercased-`WALLET`
header test exists only in the repository's unit test
(`test_csv_skip_header_and_comments`), not in `run_batch`.  So
`"WALLET,PRIVATE KEY"` is *not* skipped as a header: it reaches field
parsing and is warned as a malformed record ("invalid public key").
Empty and `#` lines are skipped, malformed lines are warned, and a valid
line after malformed ones still loads (the run does not abort). -/
theorem c8_header_line_not_skipped :
    (∀ kpDerive : Nat → Option Nat,
      processLine kpDerive "WALLET,PRIVATE KEY".toList =
        .warned .invalidPubkey) ∧
    (∀ kpDerive : Nat → Option Nat,
      processLine kpDerive "# This is a comment".toList = .skipped) ∧
    (∀ kpDerive : Nat → Option Nat,
      processLine kpDerive "".toList = .skipped) ∧
    (∀ kpDerive : Nat → Option Nat,
      processLine kpDerive "only_one_field".toList = .warned .invalidFormat) ∧
    loadWallets (fun _ => some 0)
      ["# header".toList, "WALLET,PRIVATE KEY".toList, "only_one_field".toList,
       "11111111111111111111111111111111".toList ++ ',' :: List.replicate 64 '1'] =
      [0] := by
  refine ⟨fun kp => rfl, fun kp => rfl, fun kp => rfl, fun kp => rfl, ?_⟩
  decide

end SolTool
